import Mathlib

/-!
Verification development for the Handcrafted-DP repository (`cnns.py`).

The file shallowly embeds the differentially-private training driver of
`cnns.py`: the configuration checks (lines 69-76), the run naming and
checkpoint-path construction (lines 36-57), `save_checkpoint` (lines 19-22),
and the epoch loop of `main` (lines 154-208) with its privacy accounting,
budget stop, plateau stop, telemetry logging and checkpointing.

External collaborators that are not part of the repository source
(`dp_utils.get_renyi_divergence` / `get_privacy_spent` /
`scatter_normalization`, `train_utils.train` / `test`, and the opacus
`PrivacyEngine`) are abstracted as parameters of the embedded loop: the loop
receives the Renyi-divergence function, the privacy-spent conversion, the
normalization RDP cost, the per-epoch held-out accuracy, and the accountant's
step counter value after each epoch's training pass, exactly as `main`
consumes them.  Machine floats are modelled as rationals.
-/

namespace Cnns

/-- An RDP vector: one Renyi-divergence value per order (a numpy array in
`dp_utils`), modelled as a list of rationals. -/
abbrev RdpVec := List ℚ

/-- The Python value held by `rdp_norm` in `main`: either the plain scalar
`0` (line 102) or the numpy vector returned by `scatter_normalization`
(line 107). -/
inductive PyRdp where
  | scalar : ℚ → PyRdp
  | vec : RdpVec → PyRdp

/-- Python/numpy addition `rdp_norm + rdp_sgd` (line 167): a scalar
broadcasts elementwise over the vector, two vectors add elementwise. -/
def PyRdp.addVec : PyRdp → RdpVec → RdpVec
  | .scalar c, v => v.map (fun x => c + x)
  | .vec u, v => List.zipWith (fun a b => a + b) u v

/-- One record passed to `run.log` (lines 176-185).  The loss fields are
produced by the external `train`/`test` helpers and play no role in any
claim, so only the fields the claims mention are kept. -/
structure EpochLog where
  epoch : ℕ
  test_acc : ℚ
  epsilon : Option ℚ
deriving DecidableEq, Repr

/-- The dictionary passed to `save_checkpoint` (lines 197-208).  The model
parameters (`state_dict`) and optimizer state are opaque external tensors;
the fields the source stores alongside them are kept. -/
structure Ckpt where
  epoch : ℕ
  model : String
  test_acc : ℚ
  best_acc : ℚ
deriving DecidableEq, Repr

/-- The two files `save_checkpoint` can write: the checkpoint file itself
and its `_best` copy. -/
structure CkptFiles where
  mainFile : Option Ckpt
  bestCopy : Option Ckpt
deriving DecidableEq, Repr

/-- `save_checkpoint` (lines 19-22): `torch.save(state, filename)`, then,
if `is_best`, copy the file just written to `f"filename_best"`. -/
def save_checkpoint (state : Ckpt) (is_best : Bool) (fs : CkptFiles) : CkptFiles :=
  let fs1 : CkptFiles := { mainFile := some state, bestCopy := fs.bestCopy }
  if is_best then { mainFile := fs1.mainFile, bestCopy := some state } else fs1

/-- How the epoch loop of `main` ended: the privacy-budget `return`
(line 172), the plateau `return` (line 195), or `range(0, epochs)` running
out. -/
inductive StopReason where
  | budget
  | plateau
  | completed
deriving DecidableEq, Repr

/-- Observable outcome of the epoch loop: the `run.log` records, the
epsilons printed by line 169, the arguments passed to `save_checkpoint`,
the final checkpoint files, why the loop stopped, and how many epochs it
executed (an epoch counts as executed once its `train`/`test` pass ran). -/
structure RunResult where
  logs : List EpochLog
  printedEps : List ℚ
  saves : List (Ckpt × Bool)
  fs : CkptFiles
  stoppedBy : StopReason
  epochsRun : ℕ
deriving DecidableEq, Repr

/-- The inputs of `main` (lines 25-30) that drive the epoch loop, with the
external collaborators abstracted as functions:

* `renyiDivergence` models `dp_utils.get_renyi_divergence`;
* `privacySpent` models `dp_utils.get_privacy_spent` (returning
  `(epsilon, best_order)`);
* `scatterRdp` models the RDP vector returned by
  `dp_utils.scatter_normalization` (line 107);
* `stepsAfter e` models `privacy_engine.steps`, the accountant's step
  counter, as observed after epoch `e`'s `train` call (line 160);
* `test_acc e` models the held-out accuracy returned by `test` at epoch
  `e` (line 161). -/
structure TrainConfig where
  epochs : ℕ
  noise_multiplier : ℚ
  max_epsilon : Option ℚ
  early_stop : Bool
  inputNormBN : Bool
  scatterRdp : RdpVec
  sample_rate : ℚ
  renyiDivergence : ℚ → ℚ → RdpVec
  privacySpent : RdpVec → ℚ × ℕ
  stepsAfter : ℕ → ℕ
  test_acc : ℕ → ℚ

/-- `rdp_norm` as `main` sets it up (lines 102-115): the
`scatter_normalization` RDP vector when `input_norm == "BN"`, the Python
scalar `0` otherwise. -/
def TrainConfig.rdp_norm (cfg : TrainConfig) : PyRdp :=
  if cfg.inputNormBN then .vec cfg.scatterRdp else .scalar 0

/-- The epsilon computed after epoch `e` (lines 164-167):
`rdp_sgd = get_renyi_divergence(sample_rate, noise_multiplier) * steps`,
then `epsilon, _ = get_privacy_spent(rdp_norm + rdp_sgd)`. -/
def epsilonAt (cfg : TrainConfig) (e : ℕ) : ℚ :=
  (cfg.privacySpent (cfg.rdp_norm.addVec
    ((cfg.renyiDivergence cfg.sample_rate cfg.noise_multiplier).map
      (fun x => x * (cfg.stepsAfter e : ℚ))))).1

/-- The condition of line 171: `max_epsilon is not None and epsilon >= max_epsilon`. -/
def budgetHit (cfg : TrainConfig) (eps : ℚ) : Bool :=
  match cfg.max_epsilon with
  | some m => decide (m ≤ eps)
  | none => false

/-- The epsilon value available at epoch `e`: computed (and printed) when
`noise_multiplier > 0` (line 163), left as `None` otherwise (line 174). -/
def epsOptAt (cfg : TrainConfig) (e : ℕ) : Option ℚ :=
  if 0 < cfg.noise_multiplier then some (epsilonAt cfg e) else none

/-- Prefix one epoch's observable events (its `run.log` record, printed
epsilons and `save_checkpoint` call) onto the outcome of the remaining
epochs. -/
def consLog (l : EpochLog) (eps : List ℚ) (c : Ckpt) (r : RunResult) : RunResult :=
  { r with logs := l :: r.logs, printedEps := eps ++ r.printedEps,
           saves := (c, true) :: r.saves }

/-- The epoch loop of `main` (lines 157-208), fuelled by the remaining
iterations of `range(0, epochs)`.  State per iteration: the next epoch
index, `best_acc`, `flat_count`, and the checkpoint files on disk.  Each
iteration: run `train`/`test` (externally supplied outcomes), compute and
print epsilon when `noise_multiplier > 0`, return on the budget rule,
`run.log` the record, update the plateau state and return on the plateau
rule, and finally `save_checkpoint` with `is_best=True`. -/
def runFrom (cfg : TrainConfig) : ℕ → ℕ → ℚ → ℕ → CkptFiles → RunResult
  | 0, epoch, _best_acc, _flat_count, fs =>
    { logs := [], printedEps := [], saves := [], fs := fs,
      stoppedBy := .completed, epochsRun := epoch }
  | fuel + 1, epoch, best_acc, flat_count, fs =>
    let acc := cfg.test_acc epoch
    let epsOpt : Option ℚ := epsOptAt cfg epoch
    if epsOpt.any (fun e => budgetHit cfg e) then
      { logs := [], printedEps := epsOpt.toList, saves := [], fs := fs,
        stoppedBy := .budget, epochsRun := epoch + 1 }
    else if best_acc < acc then
      let c : Ckpt := ⟨epoch + 1, "scatternet", acc, acc⟩
      consLog ⟨epoch, acc, epsOpt⟩ epsOpt.toList c
        (runFrom cfg fuel (epoch + 1) acc 0 (save_checkpoint c true fs))
    else if 20 ≤ flat_count + 1 ∧ cfg.early_stop = true then
      { logs := [⟨epoch, acc, epsOpt⟩], printedEps := epsOpt.toList, saves := [],
        fs := fs, stoppedBy := .plateau, epochsRun := epoch + 1 }
    else
      let c : Ckpt := ⟨epoch + 1, "scatternet", acc, best_acc⟩
      consLog ⟨epoch, acc, epsOpt⟩ epsOpt.toList c
        (runFrom cfg fuel (epoch + 1) best_acc (flat_count + 1)
          (save_checkpoint c true fs))

/-- The whole epoch loop of `main`: `best_acc = 0`, `flat_count = 0`
(lines 154-155), no checkpoint files yet, epochs `0, …, epochs - 1`. -/
def runMain (cfg : TrainConfig) : RunResult :=
  runFrom cfg cfg.epochs 0 0 0 ⟨none, none⟩

/-- The configuration checks of `main` (lines 69-76):
`assert bs % mini_batch_size == 0`; `n_acc_steps = bs // mini_batch_size`;
and, under `sample_batches`, `assert n_acc_steps == 1` and
`assert not augment`.  A failed assertion aborts the run; the value carried
on success is `n_acc_steps`. -/
def configChecks (batch_size mini_batch_size : ℕ) (sample_batches augment : Bool) :
    Except String ℕ :=
  if batch_size % mini_batch_size ≠ 0 then
    .error "AssertionError: bs % mini_batch_size == 0"
  else
    let n_acc_steps := batch_size / mini_batch_size
    if sample_batches then
      if n_acc_steps ≠ 1 then .error "AssertionError: n_acc_steps == 1"
      else if augment then .error "AssertionError: not augment"
      else .ok n_acc_steps
    else .ok n_acc_steps

/-- The pre-training part of `main` followed by the epoch loop: the
assertions of lines 69-76 run before the model is constructed (line 116)
and before any training; only if they pass does the epoch loop produce a
`RunResult`. -/
def mainPipeline (batch_size mini_batch_size : ℕ) (sample_batches augment : Bool)
    (cfg : TrainConfig) : Except String RunResult := do
  let _n_acc_steps ← configChecks batch_size mini_batch_size sample_batches augment
  pure (runMain cfg)

/-- Run naming (line 37): `run_name = f"cifar10_scatternet_{noise_multiplier}"`.
`noiseStr` is Python's string rendering of the float `noise_multiplier`
(a function of the noise multiplier alone). -/
def run_name (noiseStr : String) : String :=
  "cifar10_scatternet_" ++ noiseStr

/-- Checkpoint path (lines 38-41):
`pathlib.Path(out_dir) / run_name / f"model_{seed}"`. -/
def checkpoint_filename (out_dir noiseStr : String) (seed : ℕ) : String :=
  out_dir ++ "/" ++ run_name noiseStr ++ "/model_" ++ toString seed

/-- The CLI arguments of `main` that feed the run naming (lines 25-30);
`dataset` is one of `"cifar10"`, `"fmnist"`, `"mnist"`. -/
structure MainArgs where
  dataset : String
  seed : ℕ
  noiseStr : String
  out_dir : String
deriving DecidableEq, Repr

/-- The wandb run config assembled at lines 42-56 (the fields the claims
mention). -/
structure RunParamsConfig where
  name : String
  out_path : String
  dataset : String
  seed : ℕ
deriving DecidableEq, Repr

/-- Lines 36-57 of `main`: build the run name, the checkpoint path and the
telemetry config.  Note `"dataset": "cifar10"` is a literal in the source
(line 49). -/
def runSetup (a : MainArgs) : RunParamsConfig :=
  { name := run_name a.noiseStr,
    out_path := checkpoint_filename a.out_dir a.noiseStr a.seed,
    dataset := "cifar10",
    seed := a.seed }

/-- Argparse `action="store_false"` (line 231): the destination defaults to
`True` and is set to `False` when the flag is present on the command
line. -/
def store_false_value (argv : List String) (flag : String) : Bool :=
  !(argv.contains flag)

/-- The parsed value of `--early_stop` (line 231, `action='store_false'`). -/
def early_stop_arg (argv : List String) : Bool :=
  store_false_value argv "--early_stop"

/-- Modelled from the spec: the repository's `train_utils.train` and the
attached opacus `PrivacyEngine` are not under `src/`; their stepping
behaviour is taken from section 4.3 of the specification.  Accountant /
optimizer state during one epoch: the number of parameter updates performed,
the accountant's step counter, and how many physical sub-batches have been
accumulated since the last update. -/
structure SGDState where
  updates : ℕ
  steps : ℕ
  accum_batches : ℕ
deriving DecidableEq, Repr

/-- Modelled from the spec: processing one physical sub-batch (spec 4.3,
steps 1-6).  Gradients for the sub-batch are clipped, noised and
accumulated; once `n_acc_steps` sub-batches have been accumulated into the
logical batch, a single parameter update is applied and the accountant's
step counter is incremented, in the same action. -/
def processSubBatch (n_acc_steps : ℕ) (s : SGDState) : SGDState :=
  if s.accum_batches + 1 = n_acc_steps then
    { updates := s.updates + 1, steps := s.steps + 1, accum_batches := 0 }
  else
    { s with accum_batches := s.accum_batches + 1 }

/-- Modelled from the spec: running a sequence of physical sub-batches
through the clipping/noise engine (spec 4.3). -/
def runSubBatches (n_acc_steps : ℕ) : ℕ → SGDState → SGDState
  | 0, s => s
  | k + 1, s => runSubBatches n_acc_steps k (processSubBatch n_acc_steps s)

/-- The per-step SGD RDP cost scaled by the accountant's step count after
epoch `e` (line 164-166):
`get_renyi_divergence(sample_rate, noise_multiplier) * privacy_engine.steps`. -/
def sgdRdpAt (cfg : TrainConfig) (e : ℕ) : RdpVec :=
  (cfg.renyiDivergence cfg.sample_rate cfg.noise_multiplier).map
    (fun x => x * (cfg.stepsAfter e : ℚ))

/-- The normalization RDP cost in the claim's phrasing: the
`scatter_normalization` contribution under `input_norm == "BN"`, the zero
vector otherwise. -/
def claimRdpNorm (cfg : TrainConfig) : RdpVec :=
  if cfg.inputNormBN then cfg.scatterRdp
  else List.replicate
    (cfg.renyiDivergence cfg.sample_rate cfg.noise_multiplier).length 0

/-- The two fields of the run outcome that say when and why training
stopped. -/
def outcome (r : RunResult) : StopReason × ℕ :=
  (r.stoppedBy, r.epochsRun)

/-- `best_acc` after the plateau bookkeeping of epoch `e` (lines 188-190). -/
def nextBest (cfg : TrainConfig) (e : ℕ) (b : ℚ) : ℚ :=
  if b < cfg.test_acc e then cfg.test_acc e else b

/-- `flat_count` after the plateau bookkeeping of epoch `e`
(lines 188-192). -/
def nextFlat (cfg : TrainConfig) (e : ℕ) (b : ℚ) (f : ℕ) : ℕ :=
  if b < cfg.test_acc e then 0 else f + 1

/-- The value of `best_acc` on entry to epoch `e` in a run that has not
returned before epoch `e`. -/
def bestAt (cfg : TrainConfig) : ℕ → ℚ
  | 0 => 0
  | e + 1 => nextBest cfg e (bestAt cfg e)

/-- The value of `flat_count` on entry to epoch `e` in a run that has not
returned before epoch `e`. -/
def flatAt (cfg : TrainConfig) : ℕ → ℕ
  | 0 => 0
  | e + 1 => nextFlat cfg e (bestAt cfg e) (flatAt cfg e)

/-- Epoch `e` sets a new accuracy record: its held-out accuracy beats the
initial `best_acc = 0` and every earlier epoch's accuracy, so the plateau
counter resets at `e`. -/
def recordAt (cfg : TrainConfig) (e : ℕ) : Prop :=
  0 < cfg.test_acc e ∧ ∀ j, j < e → cfg.test_acc j < cfg.test_acc e

/-- The plateau rule fires at epoch `e` (given the run reached `e`): no
improvement at `e`, the incremented counter reaches 20, and early stopping
is enabled. -/
def plateauStopsAt (cfg : TrainConfig) (e : ℕ) : Prop :=
  ¬ bestAt cfg e < cfg.test_acc e ∧ 20 ≤ flatAt cfg e + 1 ∧
    cfg.early_stop = true

/-- Concrete configuration whose epsilon is `5` already at epoch 0 against
a budget of `3`; used to witness the budget stop.  (Its numeric values are
chosen so a `decide` evaluation never has to normalize a rational.) -/
def cfgBudget : TrainConfig :=
  { epochs := 5, noise_multiplier := 1, max_epsilon := some 3,
    early_stop := true, inputNormBN := false, scatterRdp := [],
    sample_rate := 1, renyiDivergence := fun _ _ => [],
    privacySpent := fun v => (if v = [] then 5 else 7, 2),
    stepsAfter := fun e => e + 1,
    test_acc := fun e => if e = 0 then 1 else 2 }

/-- Concrete configuration with a `BN` normalization cost and no budget;
used to witness the epsilon formula. -/
def cfgPlain : TrainConfig :=
  { epochs := 2, noise_multiplier := 1, max_epsilon := none,
    early_stop := true, inputNormBN := true, scatterRdp := [3, 4],
    sample_rate := 1, renyiDivergence := fun _ _ => [],
    privacySpent := fun v => (if v = [] then 5 else 7, 2),
    stepsAfter := fun e => e + 1,
    test_acc := fun e => if e = 0 then 1 else 2 }

/-- Concrete configuration with `noise_multiplier = 0`; used to witness the
no-epsilon behaviour. -/
def cfgZero : TrainConfig :=
  { epochs := 2, noise_multiplier := 0, max_epsilon := some 1,
    early_stop := true, inputNormBN := false, scatterRdp := [],
    sample_rate := 1, renyiDivergence := fun _ _ => [],
    privacySpent := fun v => (if v = [] then 5 else 7, 2),
    stepsAfter := fun e => e + 1,
    test_acc := fun e => if e = 0 then 1 else 2 }

/-- Concrete configuration whose budget is exceeded already at epoch 0, so
the run returns after one epoch without ever calling `save_checkpoint` or
`run.log`. -/
def cfgNoCkpt : TrainConfig :=
  { epochs := 3, noise_multiplier := 1, max_epsilon := some 1,
    early_stop := true, inputNormBN := false, scatterRdp := [],
    sample_rate := 1, renyiDivergence := fun _ _ => [],
    privacySpent := fun v => (if v = [] then 2 else 7, 2),
    stepsAfter := fun e => e + 1,
    test_acc := fun _ => 1 }

/-- Concrete configuration whose held-out accuracy is flat at `1` except
for a late strict peak of `2` at epoch 25; with early stopping enabled the
plateau rule fires at epoch 20, before the peak is ever reached. -/
def cfgLatePeak : TrainConfig :=
  { epochs := 100, noise_multiplier := 0, max_epsilon := none,
    early_stop := true, inputNormBN := false, scatterRdp := [],
    sample_rate := 1, renyiDivergence := fun _ _ => [],
    privacySpent := fun _ => (0, 0), stepsAfter := fun _ => 0,
    test_acc := fun e => if e = 25 then 2 else 1 }

/-- Concrete configuration whose held-out accuracy peaks at epoch 0 and
never improves afterwards; used to witness the plateau rule. -/
def cfgEarlyPeak : TrainConfig :=
  { epochs := 21, noise_multiplier := 0, max_epsilon := none,
    early_stop := true, inputNormBN := false, scatterRdp := [],
    sample_rate := 1, renyiDivergence := fun _ _ => [],
    privacySpent := fun _ => (0, 0), stepsAfter := fun _ => 0,
    test_acc := fun e => if e = 0 then 2 else 1 }

/-! Helper lemmas about the epoch loop. -/

/-- Projections of `consLog`. -/
@[simp] theorem consLog_stoppedBy (l : EpochLog) (eps : List ℚ) (c : Ckpt)
    (r : RunResult) : (consLog l eps c r).stoppedBy = r.stoppedBy := rfl

@[simp] theorem consLog_epochsRun (l : EpochLog) (eps : List ℚ) (c : Ckpt)
    (r : RunResult) : (consLog l eps c r).epochsRun = r.epochsRun := rfl

@[simp] theorem consLog_fs (l : EpochLog) (eps : List ℚ) (c : Ckpt)
    (r : RunResult) : (consLog l eps c r).fs = r.fs := rfl

@[simp] theorem consLog_logs (l : EpochLog) (eps : List ℚ) (c : Ckpt)
    (r : RunResult) : (consLog l eps c r).logs = l :: r.logs := rfl

@[simp] theorem consLog_printedEps (l : EpochLog) (eps : List ℚ) (c : Ckpt)
    (r : RunResult) : (consLog l eps c r).printedEps = eps ++ r.printedEps := rfl

@[simp] theorem consLog_saves (l : EpochLog) (eps : List ℚ) (c : Ckpt)
    (r : RunResult) : (consLog l eps c r).saves = (c, true) :: r.saves := rfl

/-- With `early_stop = False` the plateau branch of the loop is unreachable. -/
theorem runFrom_not_plateau (cfg : TrainConfig) (h : cfg.early_stop = false) :
    ∀ fuel epoch b f fs, (runFrom cfg fuel epoch b f fs).stoppedBy ≠ .plateau := by
  intro fuel
  induction fuel with
  | zero => intro epoch b f fs; simp [runFrom]
  | succ fuel ih =>
    intro epoch b f fs
    simp only [runFrom]
    split_ifs <;> simp_all

/-- Every record the loop hands to `run.log` carries the epoch index, the
epoch's held-out accuracy, and exactly the epoch's epsilon (computed when
`noise_multiplier > 0`, `None` otherwise): the `k`-th logged record belongs
to epoch `start + k`. -/
theorem runFrom_logs_get (cfg : TrainConfig) :
    ∀ fuel epoch b f fs k r,
      ((runFrom cfg fuel epoch b f fs).logs).get? k = some r →
      r = ⟨epoch + k, cfg.test_acc (epoch + k), epsOptAt cfg (epoch + k)⟩ := by
  intro fuel
  induction fuel with
  | zero => intro epoch b f fs k r hr; simp [runFrom] at hr
  | succ fuel ih =>
    intro epoch b f fs k r hr
    simp only [runFrom] at hr
    split_ifs at hr with h1 h2 h3
    · simp at hr
    · simp only [consLog_logs] at hr
      cases k with
      | zero => simpa using hr.symm
      | succ k =>
        simp only [List.get?_cons_succ] at hr
        have harr : epoch + (k + 1) = epoch + 1 + k := by omega
        rw [harr]
        exact ih (epoch + 1) _ 0 _ k r hr
    · cases k with
      | zero => simpa using hr.symm
      | succ k => simp at hr
    · simp only [consLog_logs] at hr
      cases k with
      | zero => simpa using hr.symm
      | succ k =>
        simp only [List.get?_cons_succ] at hr
        have harr : epoch + (k + 1) = epoch + 1 + k := by omega
        rw [harr]
        exact ih (epoch + 1) _ (f + 1) _ k r hr

/-- Summing elementwise with a zero vector of matching length is the
identity (the claim's reading of `rdp_norm = 0`). -/
theorem zipWith_replicate_zero (v : RdpVec) :
    List.zipWith (fun a b => a + b) (List.replicate v.length 0) v = v := by
  induction v with
  | nil => rfl
  | cons x xs ih =>
    rw [List.length_cons, List.replicate_succ, List.zipWith_cons_cons, zero_add, ih]

/-- The epsilon the loop computes (broadcast `rdp_norm + rdp_sgd`, lines
164-167) equals the claim's elementwise sum of the normalization RDP vector
(zero vector outside `BN` mode) and the step-scaled SGD RDP vector. -/
theorem epsilonAt_eq_claim (cfg : TrainConfig) (e : ℕ) :
    epsilonAt cfg e =
      (cfg.privacySpent (List.zipWith (fun a b => a + b)
        (claimRdpNorm cfg) (sgdRdpAt cfg e))).1 := by
  rcases Bool.eq_false_or_eq_true cfg.inputNormBN with hbn | hbn
  · simp [epsilonAt, claimRdpNorm, TrainConfig.rdp_norm, sgdRdpAt, hbn,
      PyRdp.addVec]
  · simp only [epsilonAt, claimRdpNorm, TrainConfig.rdp_norm, sgdRdpAt]
    rw [hbn]
    simp only [Bool.false_eq_true, if_false, PyRdp.addVec]
    rw [show (cfg.renyiDivergence cfg.sample_rate cfg.noise_multiplier).length =
      ((cfg.renyiDivergence cfg.sample_rate cfg.noise_multiplier).map
        (fun x => x * (cfg.stepsAfter e : ℚ))).length from (List.length_map _ _).symm]
    rw [zipWith_replicate_zero]
    simp only [zero_add, List.map_id']

/-- Saving with `is_best=True` overwrites both the checkpoint file and its
`_best` copy with the state just saved. -/
theorem save_checkpoint_true (c : Ckpt) (fs : CkptFiles) :
    save_checkpoint c true fs = ⟨some c, some c⟩ := rfl

/-- With `noise_multiplier = 0` no epsilon is ever printed, every logged
record carries `epsilon = None`, the budget return is unreachable, and a
run that is not stopped by the plateau rule exhausts its epoch range. -/
theorem runFrom_no_epsilon (cfg : TrainConfig) (h : cfg.noise_multiplier = 0) :
    ∀ fuel epoch b f fs,
      (runFrom cfg fuel epoch b f fs).printedEps = [] ∧
      (∀ r ∈ (runFrom cfg fuel epoch b f fs).logs, r.epsilon = none) ∧
      (runFrom cfg fuel epoch b f fs).stoppedBy ≠ .budget ∧
      ((runFrom cfg fuel epoch b f fs).stoppedBy = .completed →
        (runFrom cfg fuel epoch b f fs).epochsRun = epoch + fuel) := by
  have hnm : ¬ 0 < cfg.noise_multiplier := by rw [h]; exact lt_irrefl 0
  have heps : ∀ e, epsOptAt cfg e = none := fun e => by simp [epsOptAt, hnm]
  intro fuel
  induction fuel with
  | zero => intro epoch b f fs; simp [runFrom]
  | succ fuel ih =>
    intro epoch b f fs
    simp only [runFrom, heps]
    rw [if_neg (by simp)]
    by_cases himp : b < cfg.test_acc epoch
    · rw [if_pos himp]
      rcases ih (epoch + 1) (cfg.test_acc epoch) 0
        (save_checkpoint ⟨epoch + 1, "scatternet", cfg.test_acc epoch,
          cfg.test_acc epoch⟩ true fs) with ⟨h1, h2, h3, h4⟩
      refine ⟨by simp [h1], ?_, by simpa using h3, ?_⟩
      · intro r hr
        simp only [consLog_logs, List.mem_cons] at hr
        rcases hr with rfl | hr
        · rfl
        · exact h2 r hr
      · intro hc
        simp only [consLog_stoppedBy] at hc
        simp only [consLog_epochsRun]
        rw [h4 hc]
        omega
    · rw [if_neg himp]
      by_cases hplat : 20 ≤ f + 1 ∧ cfg.early_stop = true
      · rw [if_pos hplat]
        refine ⟨by simp, ?_, by simp, by simp⟩
        intro r hr
        simp only [List.mem_singleton] at hr
        subst hr
        rfl
      · rw [if_neg hplat]
        rcases ih (epoch + 1) b (f + 1)
          (save_checkpoint ⟨epoch + 1, "scatternet", cfg.test_acc epoch, b⟩
            true fs) with ⟨h1, h2, h3, h4⟩
        refine ⟨by simp [h1], ?_, by simpa using h3, ?_⟩
        · intro r hr
          simp only [consLog_logs, List.mem_cons] at hr
          rcases hr with rfl | hr
          · rfl
          · exact h2 r hr
        · intro hc
          simp only [consLog_stoppedBy] at hc
          simp only [consLog_epochsRun]
          rw [h4 hc]
          omega

/-- Every `save_checkpoint` call in a run passes `is_best=True`, and the
`_best` copy tracks the checkpoint file (given they agree initially). -/
theorem runFrom_saves_always_best (cfg : TrainConfig) :
    ∀ fuel epoch b f fs, fs.bestCopy = fs.mainFile →
      (∀ s ∈ (runFrom cfg fuel epoch b f fs).saves, s.2 = true) ∧
      (runFrom cfg fuel epoch b f fs).fs.bestCopy =
        (runFrom cfg fuel epoch b f fs).fs.mainFile := by
  intro fuel
  induction fuel with
  | zero => intro epoch b f fs hfs; simpa [runFrom] using hfs
  | succ fuel ih =>
    intro epoch b f fs hfs
    simp only [runFrom]
    split_ifs with h1 h2 h3
    · simpa using hfs
    · rcases ih (epoch + 1) (cfg.test_acc epoch) 0
        (save_checkpoint ⟨epoch + 1, "scatternet", cfg.test_acc epoch,
          cfg.test_acc epoch⟩ true fs) rfl with ⟨ha, hb⟩
      refine ⟨?_, by simpa using hb⟩
      intro s hs
      simp only [consLog_saves, List.mem_cons] at hs
      rcases hs with rfl | hs
      · rfl
      · exact ha s hs
    · simpa using hfs
    · rcases ih (epoch + 1) b (f + 1)
        (save_checkpoint ⟨epoch + 1, "scatternet", cfg.test_acc epoch, b⟩
          true fs) rfl with ⟨ha, hb⟩
      refine ⟨?_, by simpa using hb⟩
      intro s hs
      simp only [consLog_saves, List.mem_cons] at hs
      rcases hs with rfl | hs
      · rfl
      · exact ha s hs

/-- The number of `save_checkpoint` calls: one per executed epoch if the
epoch range was exhausted, one per executed epoch except the last if the
run returned early (the budget and plateau returns skip the save of their
own epoch). -/
theorem runFrom_save_count (cfg : TrainConfig) :
    ∀ fuel epoch b f fs,
      ((runFrom cfg fuel epoch b f fs).stoppedBy = .completed →
        epoch + (runFrom cfg fuel epoch b f fs).saves.length =
          (runFrom cfg fuel epoch b f fs).epochsRun) ∧
      ((runFrom cfg fuel epoch b f fs).stoppedBy ≠ .completed →
        epoch + (runFrom cfg fuel epoch b f fs).saves.length + 1 =
          (runFrom cfg fuel epoch b f fs).epochsRun) := by
  intro fuel
  induction fuel with
  | zero => intro epoch b f fs; simp [runFrom]
  | succ fuel ih =>
    intro epoch b f fs
    simp only [runFrom]
    split_ifs with h1 h2 h3
    · simp
    · rcases ih (epoch + 1) (cfg.test_acc epoch) 0
        (save_checkpoint ⟨epoch + 1, "scatternet", cfg.test_acc epoch,
          cfg.test_acc epoch⟩ true fs) with ⟨ha, hb⟩
      constructor
      · intro hc
        simp only [consLog_stoppedBy] at hc
        simp only [consLog_saves, consLog_epochsRun, List.length_cons]
        have := ha hc
        omega
      · intro hc
        simp only [consLog_stoppedBy] at hc
        simp only [consLog_saves, consLog_epochsRun, List.length_cons]
        have := hb hc
        omega
    · simp
    · rcases ih (epoch + 1) b (f + 1)
        (save_checkpoint ⟨epoch + 1, "scatternet", cfg.test_acc epoch, b⟩
          true fs) with ⟨ha, hb⟩
      constructor
      · intro hc
        simp only [consLog_stoppedBy] at hc
        simp only [consLog_saves, consLog_epochsRun, List.length_cons]
        have := ha hc
        omega
      · intro hc
        simp only [consLog_stoppedBy] at hc
        simp only [consLog_saves, consLog_epochsRun, List.length_cons]
        have := hb hc
        omega

/-- A run that never called `save_checkpoint` leaves the checkpoint files
untouched. -/
theorem runFrom_fs_of_no_save (cfg : TrainConfig) :
    ∀ fuel epoch b f fs, (runFrom cfg fuel epoch b f fs).saves = [] →
      (runFrom cfg fuel epoch b f fs).fs = fs := by
  intro fuel
  induction fuel with
  | zero => intro epoch b f fs _; rfl
  | succ fuel ih =>
    intro epoch b f fs hs
    simp only [runFrom] at hs ⊢
    split_ifs at hs ⊢ <;> simp_all

/-- After a run, the checkpoint file on disk holds the state of the last
`save_checkpoint` call. -/
theorem runFrom_last_save (cfg : TrainConfig) :
    ∀ fuel epoch b f fs p,
      ((runFrom cfg fuel epoch b f fs).saves).getLast? = some p →
      (runFrom cfg fuel epoch b f fs).fs.mainFile = some p.1 := by
  intro fuel
  induction fuel with
  | zero => intro epoch b f fs p hp; simp [runFrom] at hp
  | succ fuel ih =>
    intro epoch b f fs p hp
    simp only [runFrom] at hp ⊢
    split_ifs at hp ⊢ with h1 h2 h3
    · simp at hp
    · simp only [consLog_saves] at hp
      simp only [consLog_fs]
      rcases hq : (runFrom cfg fuel (epoch + 1) (cfg.test_acc epoch) 0
        (save_checkpoint ⟨epoch + 1, "scatternet", cfg.test_acc epoch,
          cfg.test_acc epoch⟩ true fs)).saves with _ | ⟨q, rest⟩
      · rw [hq, List.getLast?_singleton] at hp
        have hfs := runFrom_fs_of_no_save cfg fuel (epoch + 1) _ 0 _ hq
        rw [hfs, save_checkpoint_true]
        cases hp
        rfl
      · rw [hq, List.getLast?_cons_cons] at hp
        have := ih (epoch + 1) (cfg.test_acc epoch) 0 _ p (by rw [hq]; exact hp)
        exact this
    · simp at hp
    · simp only [consLog_saves] at hp
      simp only [consLog_fs]
      rcases hq : (runFrom cfg fuel (epoch + 1) b (f + 1)
        (save_checkpoint ⟨epoch + 1, "scatternet", cfg.test_acc epoch, b⟩
          true fs)).saves with _ | ⟨q, rest⟩
      · rw [hq, List.getLast?_singleton] at hp
        have hfs := runFrom_fs_of_no_save cfg fuel (epoch + 1) _ (f + 1) _ hq
        rw [hfs, save_checkpoint_true]
        cases hp
        rfl
      · rw [hq, List.getLast?_cons_cons] at hp
        have := ih (epoch + 1) b (f + 1) _ p (by rw [hq]; exact hp)
        exact this

theorem map_range_succ_cons (g : ℕ → ℚ) (n : ℕ) :
    (List.range (n + 1)).map g = g 0 :: (List.range n).map (fun j => g (j + 1)) := by
  rw [List.range_succ_eq_map]
  simp [Function.comp, Nat.succ_eq_add_one]

theorem getLast_map_range (g : ℕ → ℚ) (n : ℕ) :
    ((List.range (n + 1)).map g).getLast? = some (g n) := by
  rw [List.range_succ, List.map_append]
  simp

/-- If the first `n` epsilons starting at `epoch` stay below the budget `B`
and the `n`-th reaches it (with fewer than `20 - flat_count` non-improving
epochs involved, so the plateau rule cannot preempt), the run returns by
the budget rule right at epoch `epoch + n`, having printed exactly the
`n + 1` epsilons computed so far. -/
theorem runFrom_budget_stop (cfg : TrainConfig) (B : ℚ)
    (hnm : 0 < cfg.noise_multiplier) (hB : cfg.max_epsilon = some B) :
    ∀ n fuel epoch b f fs, f + n < 20 → n < fuel →
      (∀ j, j < n → epsilonAt cfg (epoch + j) < B) →
      B ≤ epsilonAt cfg (epoch + n) →
      (runFrom cfg fuel epoch b f fs).stoppedBy = .budget ∧
      (runFrom cfg fuel epoch b f fs).epochsRun = epoch + n + 1 ∧
      (runFrom cfg fuel epoch b f fs).printedEps =
        (List.range (n + 1)).map (fun j => epsilonAt cfg (epoch + j)) := by
  intro n
  induction n with
  | zero =>
    intro fuel epoch b f fs hf hfuel hlt hge
    obtain ⟨fuel', rfl⟩ : ∃ fuel', fuel = fuel' + 1 := ⟨fuel - 1, by omega⟩
    rw [Nat.add_zero] at hge
    have hhit : (epsOptAt cfg epoch).any (fun e => budgetHit cfg e) = true := by
      simp only [epsOptAt, if_pos hnm, Option.any_some, budgetHit, hB,
        decide_eq_true_eq]
      exact hge
    simp only [runFrom]
    rw [if_pos hhit]
    refine ⟨rfl, rfl, ?_⟩
    simp [epsOptAt, hnm, List.range_succ]
  | succ n ih =>
    intro fuel epoch b f fs hf hfuel hlt hge
    obtain ⟨fuel', rfl⟩ : ∃ fuel', fuel = fuel' + 1 := ⟨fuel - 1, by omega⟩
    have h0 : epsilonAt cfg epoch < B := by simpa using hlt 0 (by omega)
    have hmiss : ¬ (epsOptAt cfg epoch).any (fun e => budgetHit cfg e) = true := by
      simp only [epsOptAt, if_pos hnm, Option.any_some, budgetHit, hB,
        decide_eq_true_eq]
      exact not_le.mpr h0
    have hlt' : ∀ j, j < n → epsilonAt cfg (epoch + 1 + j) < B := by
      intro j hj
      have h := hlt (j + 1) (by omega)
      rwa [show epoch + (j + 1) = epoch + 1 + j from by omega] at h
    have hge' : B ≤ epsilonAt cfg (epoch + 1 + n) := by
      rwa [show epoch + (n + 1) = epoch + 1 + n from by omega] at hge
    have hTail : ∀ (rr : RunResult),
        rr.stoppedBy = .budget ∧ rr.epochsRun = epoch + 1 + n + 1 ∧
          rr.printedEps =
            (List.range (n + 1)).map (fun j => epsilonAt cfg (epoch + 1 + j)) →
        ∀ (l : EpochLog) (c : Ckpt),
          (consLog l (epsOptAt cfg epoch).toList c rr).stoppedBy = .budget ∧
          (consLog l (epsOptAt cfg epoch).toList c rr).epochsRun =
            epoch + (n + 1) + 1 ∧
          (consLog l (epsOptAt cfg epoch).toList c rr).printedEps =
            (List.range (n + 1 + 1)).map (fun j => epsilonAt cfg (epoch + j)) := by
      rintro rr ⟨hs, he, hp⟩ l c
      refine ⟨by simpa using hs, by simp [he]; omega, ?_⟩
      simp only [consLog_printedEps, hp, epsOptAt, if_pos hnm, Option.toList_some]
      have htail : List.map (fun j => epsilonAt cfg (epoch + 1 + j))
            (List.range (n + 1)) =
          List.map (fun j => epsilonAt cfg (epoch + (j + 1)))
            (List.range (n + 1)) := by
        apply List.map_congr_left
        intro j _
        congr 1
        omega
      rw [map_range_succ_cons (fun j => epsilonAt cfg (epoch + j)) (n + 1),
        List.singleton_append, htail]
      simp
    simp only [runFrom]
    rw [if_neg hmiss]
    by_cases himp : b < cfg.test_acc epoch
    · rw [if_pos himp]
      exact hTail _ (ih fuel' (epoch + 1) (cfg.test_acc epoch) 0 _
        (by omega) (by omega) hlt' hge') _ _
    · rw [if_neg himp]
      rw [if_neg (by rintro ⟨h20, _⟩; omega)]
      exact hTail _ (ih fuel' (epoch + 1) b (f + 1) _
        (by omega) (by omega) hlt' hge') _ _

@[simp] theorem outcome_consLog (l : EpochLog) (eps : List ℚ) (c : Ckpt)
    (r : RunResult) : outcome (consLog l eps c r) = outcome r := rfl

/-- Without a configured `max_epsilon`, the budget condition of line 171 is
never satisfied. -/
theorem no_budget_of_none (cfg : TrainConfig) (h : cfg.max_epsilon = none)
    (e : ℕ) :
    ¬ (epsOptAt cfg e).any (fun x => budgetHit cfg x) = true := by
  cases ho : epsOptAt cfg e <;> simp [budgetHit, h]

/-- When and why the loop stops does not depend on the checkpoint files on
disk. -/
theorem runFrom_outcome_fs (cfg : TrainConfig) :
    ∀ fuel epoch b f fs fs2,
      outcome (runFrom cfg fuel epoch b f fs) =
        outcome (runFrom cfg fuel epoch b f fs2) := by
  intro fuel
  induction fuel with
  | zero => intro epoch b f fs fs2; rfl
  | succ fuel ih =>
    intro epoch b f fs fs2
    simp only [runFrom]
    split_ifs
    · rfl
    · rw [outcome_consLog, outcome_consLog]
      exact ih (epoch + 1) _ 0 _ _
    · rfl
    · rw [outcome_consLog, outcome_consLog]
      exact ih (epoch + 1) _ (f + 1) _ _

/-- One epoch that triggers neither return advances the loop to the next
epoch with the plateau state updated by the code's bookkeeping. -/
theorem runFrom_step_outcome (cfg : TrainConfig) (fuel epoch : ℕ) (b : ℚ)
    (f : ℕ) (fs : CkptFiles)
    (hnb : ¬ (epsOptAt cfg epoch).any (fun e => budgetHit cfg e) = true)
    (hnp : ¬ (¬ b < cfg.test_acc epoch ∧ 20 ≤ f + 1 ∧ cfg.early_stop = true)) :
    outcome (runFrom cfg (fuel + 1) epoch b f fs) =
      outcome (runFrom cfg fuel (epoch + 1) (nextBest cfg epoch b)
        (nextFlat cfg epoch b f) fs) := by
  simp only [runFrom]
  rw [if_neg hnb]
  by_cases himp : b < cfg.test_acc epoch
  · rw [if_pos himp, outcome_consLog, nextBest, if_pos himp, nextFlat,
      if_pos himp]
    exact runFrom_outcome_fs cfg fuel (epoch + 1) _ _ _ _
  · rw [if_neg himp, if_neg (fun hc => hnp ⟨himp, hc⟩), outcome_consLog,
      nextBest, if_neg himp, nextFlat, if_neg himp]
    exact runFrom_outcome_fs cfg fuel (epoch + 1) _ _ _ _

/-- Marching from epoch 0 to epoch `e`: as long as no return fired, the
loop's `best_acc`/`flat_count` are exactly `bestAt`/`flatAt`. -/
theorem runFrom_march (cfg : TrainConfig) (hme : cfg.max_epsilon = none) :
    ∀ e fuel fs, e ≤ fuel →
      (∀ j, j < e → ¬ plateauStopsAt cfg j) →
      outcome (runFrom cfg fuel 0 0 0 fs) =
        outcome (runFrom cfg (fuel - e) e (bestAt cfg e) (flatAt cfg e) fs) := by
  intro e
  induction e with
  | zero =>
    intro fuel fs he hstop
    simp [bestAt, flatAt]
  | succ e ih =>
    intro fuel fs he hstop
    rw [ih fuel fs (by omega) (fun j hj => hstop j (by omega))]
    obtain ⟨rest, hrest⟩ : ∃ rest, fuel - e = rest + 1 := ⟨fuel - e - 1, by omega⟩
    rw [hrest]
    rw [runFrom_step_outcome cfg rest e (bestAt cfg e) (flatAt cfg e) fs
      (no_budget_of_none cfg hme e) (fun hc => hstop e (by omega) hc)]
    have hr : fuel - (e + 1) = rest := by omega
    rw [hr]
    rfl

/-- From a state with `flat_count + r = 20` and `r` more non-improving
epochs available, the plateau rule (with early stopping on and no budget)
fires exactly `r` epochs later. -/
theorem runFrom_plateau_phase (cfg : TrainConfig) (hes : cfg.early_stop = true)
    (hme : cfg.max_epsilon = none) :
    ∀ r f epoch fuel fs (b : ℚ), 1 ≤ r → f + r = 20 → r ≤ fuel →
      (∀ i, i < r → cfg.test_acc (epoch + i) ≤ b) →
      outcome (runFrom cfg fuel epoch b f fs) = (.plateau, epoch + r) := by
  intro r
  induction r with
  | zero => intro f epoch fuel fs b h1; omega
  | succ r ih =>
    intro f epoch fuel fs b _ hf hfuel hacc
    obtain ⟨fuel', rfl⟩ : ∃ fuel', fuel = fuel' + 1 := ⟨fuel - 1, by omega⟩
    have hnimp : ¬ b < cfg.test_acc epoch := by
      have h := hacc 0 (by omega)
      rw [Nat.add_zero] at h
      exact not_lt.mpr h
    rcases Nat.eq_zero_or_pos r with hr | hr
    · subst hr
      simp only [runFrom]
      rw [if_neg (no_budget_of_none cfg hme epoch), if_neg hnimp,
        if_pos ⟨by omega, hes⟩]
      simp [outcome]
    · simp only [runFrom]
      rw [if_neg (no_budget_of_none cfg hme epoch), if_neg hnimp,
        if_neg (by rintro ⟨h20, _⟩; omega), outcome_consLog]
      have h := ih (f + 1) (epoch + 1) fuel'
        (save_checkpoint ⟨epoch + 1, "scatternet", cfg.test_acc epoch, b⟩
          true fs) b (by omega) (by omega) (by omega)
        (fun i hi => by
          have hx := hacc (i + 1) (by omega)
          rwa [show epoch + (i + 1) = epoch + 1 + i from by omega] at hx)
      rw [h, show epoch + 1 + r = epoch + (r + 1) from by omega]

/-- The running best accuracy entering epoch `e` stays below any bound `x`
that is positive and above every earlier accuracy. -/
theorem bestAt_lt (cfg : TrainConfig) (x : ℚ) (hx : 0 < x) :
    ∀ e, (∀ j, j < e → cfg.test_acc j < x) → bestAt cfg e < x := by
  intro e
  induction e with
  | zero =>
    intro _
    simpa [bestAt] using hx
  | succ e ih =>
    intro h
    rw [bestAt, nextBest]
    split_ifs
    · exact h e (by omega)
    · exact ih (fun j hj => h j (by omega))

/-- The plateau counter entering epoch `e` is at most `e`. -/
theorem flatAt_le (cfg : TrainConfig) : ∀ e, flatAt cfg e ≤ e := by
  intro e
  induction e with
  | zero => simp [flatAt]
  | succ e ih =>
    rw [flatAt, nextFlat]
    split_ifs
    · omega
    · omega

/-- After a record epoch `rc`, the plateau counter entering epoch `e > rc`
counts at most the epochs strictly between them. -/
theorem flatAt_le_of_record (cfg : TrainConfig) (rc : ℕ)
    (hrec : recordAt cfg rc) :
    ∀ e, rc < e → flatAt cfg e ≤ e - rc - 1 := by
  intro e
  induction e with
  | zero => intro h; omega
  | succ e ih =>
    intro h
    rcases Nat.lt_or_ge rc e with hlt | hge
    · rw [flatAt, nextFlat]
      split_ifs
      · omega
      · have := ih hlt
        omega
    · have hrc : rc = e := by omega
      subst hrc
      rw [flatAt, nextFlat,
        if_pos (bestAt_lt cfg _ hrec.1 rc hrec.2)]
      omega

/-- If every epoch before the peak has a record within the previous 20
epochs (or is among the first 19 epochs), the plateau rule cannot fire
before the peak. -/
theorem no_plateau_before_peak (cfg : TrainConfig) (P : ℕ)
    (h6 : ∀ e, e < P → (∃ rc, rc ≤ e ∧ recordAt cfg rc ∧ e < rc + 20) ∨ e < 19) :
    ∀ e, e < P → ¬ plateauStopsAt cfg e := by
  intro e he hplat
  rcases hplat with ⟨hnimp, h20, _⟩
  rcases h6 e he with ⟨rc, hrce, hrec, hwin⟩ | hsmall
  · rcases Nat.lt_or_ge rc e with hlt | hge
    · have := flatAt_le_of_record cfg rc hrec e hlt
      omega
    · have hrc : rc = e := by omega
      subst hrc
      exact hnimp (bestAt_lt cfg _ hrec.1 rc hrec.2)
  · have := flatAt_le cfg e
    omega

/-! Helper lemmas for the sub-batch accumulation model. -/

theorem runSubBatches_lockstep (n : ℕ) :
    ∀ (k : ℕ) (s : SGDState), s.updates = s.steps →
      (runSubBatches n k s).updates = (runSubBatches n k s).steps := by
  intro k
  induction k with
  | zero => intro s h; simpa [runSubBatches] using h
  | succ k ih =>
    intro s h
    simp only [runSubBatches]
    apply ih
    unfold processSubBatch
    split_ifs <;> simp [h]

theorem runSubBatches_one_logical (n : ℕ) :
    ∀ (j : ℕ) (s : SGDState), 1 ≤ j → s.accum_batches + j = n →
      runSubBatches n j s = ⟨s.updates + 1, s.steps + 1, 0⟩ := by
  intro j
  induction j with
  | zero => intro s h; omega
  | succ j ih =>
    intro s _ hacc
    simp only [runSubBatches]
    rcases Nat.eq_zero_or_pos j with hj | hj
    · subst hj
      have hn : s.accum_batches + 1 = n := by omega
      simp [processSubBatch, hn, runSubBatches]
    · have hne : ¬(s.accum_batches + 1 = n) := by omega
      rw [processSubBatch, if_neg hne]
      exact ih _ hj (by simp; omega)

theorem runSubBatches_add (n : ℕ) :
    ∀ (a b : ℕ) (s : SGDState),
      runSubBatches n (a + b) s = runSubBatches n b (runSubBatches n a s) := by
  intro a
  induction a with
  | zero => intro b s; simp [runSubBatches]
  | succ a ih =>
    intro b s
    have : a + 1 + b = (a + b) + 1 := by omega
    rw [this]
    simp only [runSubBatches]
    exact ih b (processSubBatch n s)

theorem runSubBatches_many_logical (K : ℕ) (hK : 0 < K) :
    ∀ m : ℕ, runSubBatches K (m * K) ⟨0, 0, 0⟩ = ⟨m, m, 0⟩ := by
  intro m
  induction m with
  | zero => simp [runSubBatches]
  | succ m ih =>
    have : (m + 1) * K = m * K + K := by ring
    rw [this, runSubBatches_add, ih]
    exact runSubBatches_one_logical K K ⟨m, m, 0⟩ hK (by simp)

/-! Claim theorems. -/

/-- C1: after each epoch, when `noise_multiplier > 0`, the epsilon reported
in the epoch's telemetry record equals `privacy_spent` applied to the
elementwise sum of the one-time normalization RDP cost (the
`scatter_normalization` contribution when `input_norm == "BN"`, zero
otherwise) and the per-step RDP `renyi_divergence(sample_rate,
noise_multiplier)` multiplied by the accountant's step count: the `k`-th
logged record belongs to epoch `k` and carries exactly that value. -/
theorem claim_C1_epsilon_formula (cfg : TrainConfig) (k : ℕ) (r : EpochLog)
    (hnm : 0 < cfg.noise_multiplier)
    (hr : ((runMain cfg).logs).get? k = some r) :
    r.epoch = k ∧
    r.epsilon = some ((cfg.privacySpent (List.zipWith (fun a b => a + b)
      (claimRdpNorm cfg) (sgdRdpAt cfg k))).1) := by
  have h := runFrom_logs_get cfg cfg.epochs 0 0 0 ⟨none, none⟩ k r hr
  subst h
  refine ⟨by simp, ?_⟩
  simp only [Nat.zero_add, epsOptAt, if_pos hnm]
  rw [epsilonAt_eq_claim]

/-- C2: with a configured budget `B` and `noise_multiplier > 0`, at the
first epoch `k` whose computed epsilon reaches `B` (here within the first
few epochs: `k < 20`, so the plateau rule cannot preempt, and
`k + 1 < epochs`), training terminates immediately: the run stops by the
budget rule right after epoch `k` with no further epochs, before the
configured epoch count is exhausted, and the last emitted epsilon is the
one that reached the budget, hence `≥ B`. -/
theorem claim_C2_budget_stop (cfg : TrainConfig) (B : ℚ) (k : ℕ)
    (hnm : 0 < cfg.noise_multiplier) (hB : cfg.max_epsilon = some B)
    (hk20 : k < 20) (hkep : k + 1 < cfg.epochs)
    (hfirst : ∀ j, j < k → epsilonAt cfg j < B)
    (hhit : B ≤ epsilonAt cfg k) :
    (runMain cfg).stoppedBy = .budget ∧
    (runMain cfg).epochsRun = k + 1 ∧
    (runMain cfg).epochsRun < cfg.epochs ∧
    (runMain cfg).printedEps.getLast? = some (epsilonAt cfg k) ∧
    B ≤ epsilonAt cfg k := by
  have h := runFrom_budget_stop cfg B hnm hB k cfg.epochs 0 0 0 ⟨none, none⟩
    (by omega) (by omega)
    (fun j hj => by simpa using hfirst j hj) (by simpa using hhit)
  rcases h with ⟨h1, h2, h3⟩
  have hrm : runMain cfg = runFrom cfg cfg.epochs 0 0 0 ⟨none, none⟩ := rfl
  rw [hrm]
  refine ⟨h1, by simpa using h2, by rw [h2]; omega, ?_, hhit⟩
  rw [h3, getLast_map_range]
  simp

/-- Witness for C2 at a concrete input: in `cfgBudget` (constant epsilon 5,
budget 3) the run stops by the budget rule after epoch 0, before its 5
configured epochs, and the last emitted epsilon reached the budget. -/
theorem claim_C2_budget_stop_witness :
    (runMain cfgBudget).stoppedBy = .budget ∧
    (runMain cfgBudget).epochsRun = 0 + 1 ∧
    (runMain cfgBudget).epochsRun < cfgBudget.epochs ∧
    (runMain cfgBudget).printedEps.getLast? = some (epsilonAt cfgBudget 0) ∧
    (3 : ℚ) ≤ epsilonAt cfgBudget 0 :=
  claim_C2_budget_stop cfgBudget 3 0 (by decide) rfl (by decide) (by decide)
    (by intro j hj; omega) (by decide)

/-- C4 fails as stated: `cfgLatePeak`'s held-out accuracy peaks (strictly)
at epoch 25 and never improves afterwards, with early stopping enabled and
100 configured epochs, yet the run terminates by plateau at epoch 20 —
during 21 epochs, not the claimed 25 + 20 + 1 — because a 20-epoch
non-improving stretch at a lower accuracy precedes the peak. -/
theorem claim_C4_counterexample :
    cfgLatePeak.early_stop = true ∧
    recordAt cfgLatePeak 25 ∧
    (∀ e, 25 < e → cfgLatePeak.test_acc e ≤ cfgLatePeak.test_acc 25) ∧
    (runMain cfgLatePeak).stoppedBy = .plateau ∧
    (runMain cfgLatePeak).epochsRun = 21 ∧
    (runMain cfgLatePeak).epochsRun ≠ 25 + 20 + 1 := by
  refine ⟨rfl, by unfold recordAt; exact ⟨by decide, by decide⟩, ?_,
    by decide, by decide, by decide⟩
  intro e he
  show (if e = 25 then (2 : ℚ) else 1) ≤ (if 25 = 25 then (2 : ℚ) else 1)
  rw [if_neg (by omega), if_pos rfl]
  norm_num

/-- C4 (amended): with early stopping enabled, no privacy-budget cap, and
more than `P + 20` configured epochs, a run whose held-out accuracy sets a
strict record at epoch `P` (positive and above all earlier accuracies),
never improves after `P`, and sets a record within every 20 consecutive
epochs before `P` (so the plateau rule cannot fire before the peak),
terminates as a normal completion by the plateau rule exactly at epoch
`P + 20` (having executed epochs `0 … P + 20`); with early stopping
disabled the plateau rule never terminates training, whatever the run. -/
theorem claim_C4_plateau (cfg : TrainConfig) (P : ℕ) :
    (cfg.early_stop = true → cfg.max_epsilon = none → P + 20 < cfg.epochs →
      recordAt cfg P →
      (∀ e, P < e → cfg.test_acc e ≤ cfg.test_acc P) →
      (∀ e, e < P → (∃ rc, rc ≤ e ∧ recordAt cfg rc ∧ e < rc + 20) ∨ e < 19) →
      (runMain cfg).stoppedBy = .plateau ∧
      (runMain cfg).epochsRun = P + 20 + 1) ∧
    (cfg.early_stop = false → (runMain cfg).stoppedBy ≠ .plateau) := by
  constructor
  · intro hes hme hep hrec hafter h6
    have hstops : ∀ j, j < P + 1 → ¬ plateauStopsAt cfg j := by
      intro j hj
      rcases Nat.lt_or_ge j P with hjP | hjP
      · exact no_plateau_before_peak cfg P h6 j hjP
      · have hjeq : j = P := by omega
        subst hjeq
        intro hplat
        exact hplat.1 (bestAt_lt cfg _ hrec.1 j hrec.2)
    have hmarch := runFrom_march cfg hme (P + 1) cfg.epochs ⟨none, none⟩
      (by omega) hstops
    have himp : bestAt cfg P < cfg.test_acc P :=
      bestAt_lt cfg _ hrec.1 P hrec.2
    have hbest : bestAt cfg (P + 1) = cfg.test_acc P := by
      rw [bestAt, nextBest, if_pos himp]
    have hflat : flatAt cfg (P + 1) = 0 := by
      rw [flatAt, nextFlat, if_pos himp]
    have hphase := runFrom_plateau_phase cfg hes hme 20 0 (P + 1)
      (cfg.epochs - (P + 1)) ⟨none, none⟩ (cfg.test_acc P)
      (by omega) (by omega) (by omega)
      (fun i hi => hafter (P + 1 + i) (by omega))
    have hout : outcome (runMain cfg) = (.plateau, P + 1 + 20) := by
      have hrm : runMain cfg = runFrom cfg cfg.epochs 0 0 0 ⟨none, none⟩ := rfl
      rw [hrm, hmarch, hbest, hflat, hphase]
    constructor
    · have h1 := congrArg Prod.fst hout
      simpa [outcome] using h1
    · have h2 := congrArg Prod.snd hout
      simp only [outcome] at h2
      omega
  · intro hes
    exact runFrom_not_plateau cfg hes cfg.epochs 0 0 0 ⟨none, none⟩

/-- Witness for C4 (amended) at a concrete input: `cfgEarlyPeak` peaks at
epoch 0 and never improves afterwards; with the default 20-epoch window
the run stops by plateau at epoch 20 (21 epochs executed). -/
theorem claim_C4_plateau_witness :
    (runMain cfgEarlyPeak).stoppedBy = .plateau ∧
    (runMain cfgEarlyPeak).epochsRun = 0 + 20 + 1 :=
  (claim_C4_plateau cfgEarlyPeak 0).1 rfl rfl (by decide)
    (by unfold recordAt; exact ⟨by decide, by decide⟩)
    (fun e he => by
      show (if e = 0 then (2 : ℚ) else 1) ≤ (if 0 = 0 then (2 : ℚ) else 1)
      rw [if_neg (by omega), if_pos rfl]
      norm_num)
    (fun e he => absurd he (Nat.not_lt_zero e))

/-- C6: with `noise_multiplier = 0` epsilon is never computed: nothing is
ever printed by the epsilon reporting line, every telemetry record carries
`epsilon = None`, the maximum-epsilon stopping rule never fires (the run
never stops with the budget reason, whatever `max_epsilon` is), and the
run continues until the epoch count is exhausted (running exactly `epochs`
epochs) or the plateau rule fires. -/
theorem claim_C6_zero_noise (cfg : TrainConfig) (h : cfg.noise_multiplier = 0) :
    (runMain cfg).printedEps = [] ∧
    (∀ r ∈ (runMain cfg).logs, r.epsilon = none) ∧
    (runMain cfg).stoppedBy ≠ .budget ∧
    ((runMain cfg).stoppedBy = .completed → (runMain cfg).epochsRun = cfg.epochs) ∧
    ((runMain cfg).stoppedBy = .completed ∨ (runMain cfg).stoppedBy = .plateau) := by
  rcases runFrom_no_epsilon cfg h cfg.epochs 0 0 0 ⟨none, none⟩ with ⟨h1, h2, h3, h4⟩
  refine ⟨h1, h2, h3, fun hc => by simpa using h4 hc, ?_⟩
  cases hs : (runMain cfg).stoppedBy with
  | budget => exact absurd hs h3
  | plateau => exact Or.inr rfl
  | completed => exact Or.inl rfl

/-- Witness for C6 at a concrete input: `cfgZero` prints nothing, logs no
epsilon, and completes its two epochs. -/
theorem claim_C6_zero_noise_witness :
    (runMain cfgZero).printedEps = [] ∧
    (runMain cfgZero).stoppedBy ≠ .budget ∧
    (runMain cfgZero).epochsRun = 2 :=
  ⟨(claim_C6_zero_noise cfgZero rfl).1,
   (claim_C6_zero_noise cfgZero rfl).2.2.1,
   (claim_C6_zero_noise cfgZero rfl).2.2.2.1 (by decide)⟩

/-- C7 fails as stated: in `cfgNoCkpt` the budget return fires at epoch 0,
so the run executes one epoch but persists no checkpoint at all (and logs
nothing): it is not the case that the training state is persisted after
every epoch. -/
theorem claim_C7_counterexample :
    (runMain cfgNoCkpt).epochsRun = 1 ∧
    (runMain cfgNoCkpt).saves = [] ∧
    (runMain cfgNoCkpt).logs = [] ∧
    (runMain cfgNoCkpt).fs.mainFile = none := by
  decide

/-- C7 (amended): after every epoch that does not trigger the budget or
plateau return, the full training state is persisted; every
`save_checkpoint` call passes `is_best=True`, so the `_best` copy always
equals the checkpoint file, which holds the state of the last save.  A run
that exhausts its epoch range saves once per epoch; a run that returns
early saves once per epoch except for its final (returning) epoch. -/
theorem claim_C7_checkpoint_always_best (cfg : TrainConfig) :
    (∀ s ∈ (runMain cfg).saves, s.2 = true) ∧
    (runMain cfg).fs.bestCopy = (runMain cfg).fs.mainFile ∧
    (∀ p, ((runMain cfg).saves).getLast? = some p →
      (runMain cfg).fs.mainFile = some p.1) ∧
    ((runMain cfg).stoppedBy = .completed →
      (runMain cfg).saves.length = (runMain cfg).epochsRun) ∧
    ((runMain cfg).stoppedBy ≠ .completed →
      (runMain cfg).saves.length + 1 = (runMain cfg).epochsRun) := by
  rcases runFrom_saves_always_best cfg cfg.epochs 0 0 0 ⟨none, none⟩ rfl with ⟨h1, h2⟩
  rcases runFrom_save_count cfg cfg.epochs 0 0 0 ⟨none, none⟩ with ⟨h3, h4⟩
  exact ⟨h1, h2, fun p hp => runFrom_last_save cfg cfg.epochs 0 0 0 ⟨none, none⟩ p hp,
    fun hc => by simpa using h3 hc, fun hc => by simpa using h4 hc⟩

/-- Witness for C7 (amended) at a concrete input: `cfgZero` completes both
its epochs, saving twice, always as best. -/
theorem claim_C7_checkpoint_always_best_witness :
    (runMain cfgZero).fs.bestCopy = (runMain cfgZero).fs.mainFile ∧
    (runMain cfgZero).saves.length = (runMain cfgZero).epochsRun :=
  ⟨(claim_C7_checkpoint_always_best cfgZero).2.1,
   (claim_C7_checkpoint_always_best cfgZero).2.2.2.1 (by decide)⟩

/-- Witness for C1 at a concrete input: in `cfgPlain` the record logged for
epoch 0 carries exactly the epsilon of the claim's formula. -/
theorem claim_C1_epsilon_formula_witness :
    (⟨0, 1, some 5⟩ : EpochLog).epoch = 0 ∧
    (⟨0, 1, some 5⟩ : EpochLog).epsilon =
      some ((cfgPlain.privacySpent (List.zipWith (fun a b => a + b)
        (claimRdpNorm cfgPlain) (sgdRdpAt cfgPlain 0))).1) :=
  claim_C1_epsilon_formula cfgPlain 0 ⟨0, 1, some 5⟩ (by decide) (by decide)

/-- C3: the step count reported to the accountant equals the number of
logical-batch parameter updates, not the number of physical sub-batches:
`K` physical sub-batches accumulated with `n_acc_steps = K` report exactly
one accountant step and one parameter update (and `m` logical batches
report `m` of each), and the accountant step count and the update count
stay in lockstep throughout. -/
theorem claim_C3_accountant_lockstep :
    (∀ K, 0 < K → runSubBatches K K ⟨0, 0, 0⟩ = ⟨1, 1, 0⟩) ∧
    (∀ K m, 0 < K → runSubBatches K (m * K) ⟨0, 0, 0⟩ = ⟨m, m, 0⟩) ∧
    (∀ n k s, s.updates = s.steps →
      (runSubBatches n k s).updates = (runSubBatches n k s).steps) := by
  refine ⟨fun K hK => ?_, fun K m hK => runSubBatches_many_logical K hK m,
    fun n k s h => runSubBatches_lockstep n k s h⟩
  have := runSubBatches_many_logical K hK 1
  simpa using this

/-- Witness for C3 at a concrete input: four sub-batches accumulated into
one logical batch report exactly one accountant step and one update. -/
theorem claim_C3_accountant_lockstep_witness :
    runSubBatches 4 4 ⟨0, 0, 0⟩ = ⟨1, 1, 0⟩ :=
  claim_C3_accountant_lockstep.1 4 (by decide)

/-- C5: combining Poisson batch sampling with batch accumulation (logical
batch size strictly larger than the physical mini-batch size) or with data
augmentation makes `main` abort on an assertion before training starts: the
pipeline returns an error and never produces a training run. -/
theorem claim_C5_poisson_rejected (batch_size mini_batch_size : ℕ) (augment : Bool)
    (cfg : TrainConfig)
    (hc : mini_batch_size < batch_size ∨ augment = true) :
    ∃ msg, mainPipeline batch_size mini_batch_size true augment cfg =
      .error msg := by
  unfold mainPipeline configChecks
  by_cases hmod : batch_size % mini_batch_size ≠ 0
  · exact ⟨"AssertionError: bs % mini_batch_size == 0", by simp [hmod]⟩
  · push_neg at hmod
    by_cases hone : batch_size / mini_batch_size = 1
    · have hbs : batch_size = mini_batch_size := by
        have hdvd : mini_batch_size ∣ batch_size := Nat.dvd_of_mod_eq_zero hmod
        have := Nat.div_mul_cancel hdvd
        rw [hone, one_mul] at this
        omega
      have haug : augment = true := by
        rcases hc with hlt | haug
        · omega
        · exact haug
      exact ⟨"AssertionError: not augment", by simp [hmod, hone, haug]⟩
    · exact ⟨"AssertionError: n_acc_steps == 1", by simp [hmod, hone]⟩

/-- Witness for C5 at a concrete input: Poisson sampling with a logical
batch of 2048 over mini-batches of 256 is rejected. -/
theorem claim_C5_poisson_rejected_witness :
    ∃ msg, mainPipeline 2048 256 true false
      { epochs := 1, noise_multiplier := 1, max_epsilon := none,
        early_stop := true, inputNormBN := false, scatterRdp := [],
        sample_rate := 1, renyiDivergence := fun _ _ => [],
        privacySpent := fun _ => (0, 0), stepsAfter := fun _ => 0,
        test_acc := fun _ => 0 } = .error msg :=
  claim_C5_poisson_rejected 2048 256 false _ (by left; decide)

/-- C8: if the logical `batch_size` is not an exact multiple of
`mini_batch_size`, `main` aborts on the assertion at line 70 before any
model construction or training; when it is a multiple, the number of
accumulation sub-steps per logical batch is `batch_size / mini_batch_size`. -/
theorem claim_C8_batch_divisibility (batch_size mini_batch_size : ℕ)
    (sample_batches augment : Bool) :
    (batch_size % mini_batch_size ≠ 0 →
      ∀ cfg : TrainConfig,
        mainPipeline batch_size mini_batch_size sample_batches augment cfg =
          .error "AssertionError: bs % mini_batch_size == 0") ∧
    (batch_size % mini_batch_size = 0 →
      ∀ n, configChecks batch_size mini_batch_size sample_batches augment = .ok n →
        n = batch_size / mini_batch_size) := by
  constructor
  · intro hmod cfg
    simp [mainPipeline, configChecks, hmod]
  · intro hmod n hok
    unfold configChecks at hok
    simp only [hmod] at hok
    split_ifs at hok <;> simp_all

/-- Witness for C8 at concrete inputs: `batch_size = 1000`,
`mini_batch_size = 256` aborts; `batch_size = 2048`, `mini_batch_size = 256`
yields `n_acc_steps = 8`. -/
theorem claim_C8_batch_divisibility_witness :
    mainPipeline 1000 256 false false
      { epochs := 1, noise_multiplier := 1, max_epsilon := none,
        early_stop := true, inputNormBN := false, scatterRdp := [],
        sample_rate := 1, renyiDivergence := fun _ _ => [],
        privacySpent := fun _ => (0, 0), stepsAfter := fun _ => 0,
        test_acc := fun _ => 0 } =
        .error "AssertionError: bs % mini_batch_size == 0" ∧
    (8 : ℕ) = 2048 / 256 :=
  ⟨(claim_C8_batch_divisibility 1000 256 false false).1 (by decide) _,
   (claim_C8_batch_divisibility 2048 256 false false).2 (by decide) 8 (by rfl)⟩

/-- C9: on the command line, `--early_stop` is declared with
`action='store_false'`, so supplying the flag sets `early_stop` to `False`
and disables the plateau rule (a run parsed from such a command line can
never stop by plateau), while omitting the flag leaves `early_stop` at its
default `True`. -/
theorem claim_C9_early_stop_flag (argv : List String) (cfg : TrainConfig) :
    ("--early_stop" ∈ argv →
      early_stop_arg argv = false ∧
      ∀ fuel epoch b f fs,
        (runFrom { cfg with early_stop := early_stop_arg argv }
          fuel epoch b f fs).stoppedBy ≠ .plateau) ∧
    ("--early_stop" ∉ argv → early_stop_arg argv = true) := by
  constructor
  · intro hmem
    have hval : early_stop_arg argv = false := by
      simp [early_stop_arg, store_false_value, hmem]
    refine ⟨hval, fun fuel epoch b f fs => ?_⟩
    exact runFrom_not_plateau _ hval fuel epoch b f fs
  · intro hmem
    simp [early_stop_arg, store_false_value, hmem]

/-- Witness for C9 at concrete command lines. -/
theorem claim_C9_early_stop_flag_witness :
    early_stop_arg ["--dataset", "cifar10", "--early_stop"] = false ∧
    early_stop_arg ["--dataset", "cifar10"] = true :=
  ⟨(claim_C9_early_stop_flag ["--dataset", "cifar10", "--early_stop"]
      { epochs := 1, noise_multiplier := 1, max_epsilon := none,
        early_stop := true, inputNormBN := false, scatterRdp := [],
        sample_rate := 1, renyiDivergence := fun _ _ => [],
        privacySpent := fun _ => (0, 0), stepsAfter := fun _ => 0,
        test_acc := fun _ => 0 }).1 (by decide) |>.1,
   (claim_C9_early_stop_flag ["--dataset", "cifar10"]
      { epochs := 1, noise_multiplier := 1, max_epsilon := none,
        early_stop := true, inputNormBN := false, scatterRdp := [],
        sample_rate := 1, renyiDivergence := fun _ _ => [],
        privacySpent := fun _ => (0, 0), stepsAfter := fun _ => 0,
        test_acc := fun _ => 0 }).2 (by decide)⟩

/-- C10: the run name is the fixed string `"cifar10_scatternet_"` followed
by the noise multiplier (whatever the dataset argument is), the telemetry
config's dataset field is the literal `"cifar10"`, and the checkpoint path
depends only on `out_dir`, the noise multiplier and the seed: two runs that
agree on those three write to the same checkpoint path even on different
datasets. -/
theorem claim_C10_run_naming (a b : MainArgs)
    (hout : a.out_dir = b.out_dir) (hn : a.noiseStr = b.noiseStr)
    (hs : a.seed = b.seed) :
    (runSetup a).name = "cifar10_scatternet_" ++ a.noiseStr ∧
    (runSetup a).dataset = "cifar10" ∧
    (runSetup a).out_path = (runSetup b).out_path := by
  refine ⟨rfl, rfl, ?_⟩
  simp [runSetup, checkpoint_filename, run_name, hout, hn, hs]

/-- Witness for C10 at concrete inputs: an `mnist` run and a `cifar10` run
with the same seed, noise multiplier and output directory share the
checkpoint path, and the `mnist` run is labeled `cifar10`. -/
theorem claim_C10_run_naming_witness :
    (runSetup ⟨"mnist", 0, "1.0", "out"⟩).name = "cifar10_scatternet_" ++ "1.0" ∧
    (runSetup ⟨"mnist", 0, "1.0", "out"⟩).dataset = "cifar10" ∧
    (runSetup ⟨"mnist", 0, "1.0", "out"⟩).out_path =
      (runSetup ⟨"cifar10", 0, "1.0", "out"⟩).out_path :=
  claim_C10_run_naming ⟨"mnist", 0, "1.0", "out"⟩ ⟨"cifar10", 0, "1.0", "out"⟩
    rfl rfl rfl

end Cnns
